import Mathlib

/-!
Verification of `src/plugins/utils/dashboard-workspaces-ingested.js`
(the AnVIL dashboard workspaces ingestion service).

The JavaScript source is shallowly embedded:
* JS runtime values flowing through the pipeline are modelled by `JsValue`
  (string, number, array of strings, `undefined`).
* JS numbers produced by `Number(...)` are modelled by `JsNum`: either `nan`
  or a decimal `dec m s` denoting `m / 10^s`, kept in canonical form
  (`s > 0` only when the last fraction digit is non-zero), so that structural
  equality coincides with numeric equality on parser outputs.  Exponent,
  hexadecimal and `Infinity` literal forms of JS `Number` are not modelled:
  no input of the claims uses them.
* JS objects are association lists `RecordObj` with `Object.assign`
  overwrite semantics; JS `Map` is the association list `JsMap` with
  insertion-order `set`/`get`.
* String primitives (`split`, `replace(/,/g,"")`, `toUpperCase`, `trim`)
  are implemented structurally over `List Char`.
* A thrown `TypeError` is modelled by `Except.error`; `async` functions
  are modelled as pure functions (the code has no concurrency interaction).
* The filesystem is a map `FileSystem` from file name to optional content;
  `console.log` diagnostics are returned as the first component of
  `getFileContents`.
-/

/-! ## Character-level string primitives -/

/-- JS `s.split(sep)` for a one-character separator, over the character list. -/
def splitChar (sep : Char) : List Char → List (List Char)
  | [] => [[]]
  | c :: cs =>
    if c = sep then [] :: splitChar sep cs
    else
      match splitChar sep cs with
      | [] => [[c]]
      | g :: gs => (c :: g) :: gs

/-- JS `s.split("\r\n")`: split on the two-character CRLF separator. -/
def splitCRLF : List Char → List (List Char)
  | [] => [[]]
  | [c] => [[c]]
  | c1 :: c2 :: cs =>
    if c1 = '\r' && c2 = '\n' then [] :: splitCRLF cs
    else
      match splitCRLF (c2 :: cs) with
      | [] => [[c1]]
      | g :: gs => (c1 :: g) :: gs

/-- JS `s.split(sep)` for a one-character separator, on `String`. -/
def splitStr (sep : Char) (s : String) : List String :=
  (splitChar sep s.data).map String.mk

/-- JS `s.split("\r\n")` on `String`. -/
def splitCRLFStr (s : String) : List String :=
  (splitCRLF s.data).map String.mk

/-- JS `s.toUpperCase()` (ASCII letters). -/
def toUpperStr (s : String) : String :=
  String.mk (s.data.map Char.toUpper)

/-- JS `s.replace(/,/g, "")`: drop every comma. -/
def stripCommasStr (s : String) : String :=
  String.mk (s.data.filter (fun c => !(c = ',')))

/-! ## JS numbers and values -/

/-- A JS number as produced by `Number(...)`: `nan`, or the decimal
`dec m s` denoting `m / 10^s`.  Parser outputs are canonical
(the fraction never ends in a zero digit), so `DecidableEq` agrees with
numeric equality where it is used. -/
inductive JsNum where
  | nan : JsNum
  | dec : Int → Nat → JsNum
deriving DecidableEq, Repr

/-- A JS runtime value flowing through this pipeline. -/
inductive JsValue where
  | str : String → JsValue
  | num : JsNum → JsValue
  | arr : List String → JsValue
  | undef : JsValue
deriving DecidableEq, Repr

/-- JS truthiness of a `JsValue` (`""`, `0`, `NaN`, `undefined` are falsy). -/
def jsTruthy : JsValue → Bool
  | .str s => !(s = "")
  | .num .nan => false
  | .num (.dec m _) => !(m = 0)
  | .arr _ => true
  | .undef => false

/-- JS `v || d`. -/
def jsOr (v d : JsValue) : JsValue :=
  if jsTruthy v then v else d

/-- Decimal digits to a natural number, most significant first. -/
def digitsToNat : List Char → Nat → Nat
  | [], acc => acc
  | c :: cs, acc => digitsToNat cs (acc * 10 + (c.toNat - '0'.toNat))

/-- Drop trailing `'0'` characters. -/
def stripTrailingZeros (l : List Char) : List Char :=
  (l.reverse.dropWhile (fun c => c = '0')).reverse

/-- JS `Number(s)` on the decimal forms that occur in this pipeline:
optional whitespace, optional sign, digits with an optional single decimal
point; empty/whitespace input is `0`; anything else is `NaN`. -/
def jsNumberOfString (s : String) : JsNum :=
  let t := (s.data.dropWhile Char.isWhitespace).reverse.dropWhile Char.isWhitespace |>.reverse
  if t = [] then .dec 0 0
  else
    let sign : Int := match t with
      | '-' :: _ => -1
      | _ => 1
    let body : List Char := match t with
      | '-' :: r => r
      | '+' :: r => r
      | _ => t
    match splitChar '.' body with
    | [a] =>
      if !(a = []) && a.all Char.isDigit then .dec (sign * digitsToNat a 0) 0 else .nan
    | [a, b] =>
      if (!(a = []) || !(b = [])) && a.all Char.isDigit && b.all Char.isDigit then
        let f := stripTrailingZeros b
        .dec (sign * (digitsToNat a 0 * 10 ^ f.length + digitsToNat f 0)) f.length
      else .nan
    | _ => .nan

/-! ## JS objects and Maps -/

/-- A JS object: association list from property name to value,
first occurrence of a key is its binding (keys are kept unique by `objSet`). -/
abbrev RecordObj := List (String × JsValue)

/-- JS `obj[k] = v` / `Object.assign(obj, {[k]: v})`: overwrite the binding in
place when the property exists, append it otherwise. -/
def objSet : RecordObj → String → JsValue → RecordObj
  | [], k, v => [(k, v)]
  | p :: r, k, v => if p.1 = k then (k, v) :: r else p :: objSet r k v

/-- Property lookup distinguishing absence (`none`) from a stored value. -/
def objGetQ (r : RecordObj) (k : String) : Option JsValue :=
  (r.find? (fun p => p.1 = k)).map (fun p => p.2)

/-- JS `obj[k]`: `undefined` when the property is absent. -/
def objGet (r : RecordObj) (k : String) : JsValue :=
  (objGetQ r k).getD (JsValue.undef)

/-- JS `obj[k]` where `k` is itself possibly `undefined`
(JS coerces the key `undefined` to the property name `"undefined"`). -/
def objGetOpt (r : RecordObj) (k : Option String) : JsValue :=
  objGet r (k.getD "undefined")

/-- JS `obj[k] = v` with a possibly-`undefined` key. -/
def objSetOpt (r : RecordObj) (k : Option String) (v : JsValue) : RecordObj :=
  objSet r (k.getD "undefined") v

/-- JS `Object.assign(a, b)`: copy `b`'s properties onto `a`, in order. -/
def objAssign (a b : RecordObj) : RecordObj :=
  b.foldl (fun acc p => objSet acc p.1 p.2) a

/-- A JS `Map`: association list with insertion-order `set` semantics.
`DecidableEq JsValue` matches SameValueZero on the values stored here. -/
abbrev JsMap := List (JsValue × JsValue)

/-- JS `map.set(k, v)`: overwrite the entry in place when the key exists,
append it otherwise. -/
def mapSet : JsMap → JsValue → JsValue → JsMap
  | [], k, v => [(k, v)]
  | p :: m, k, v => if p.1 = k then (k, v) :: m else p :: mapSet m k v

/-- JS `map.get(k)` distinguishing absence. -/
def mapGetQ (m : JsMap) (k : JsValue) : Option JsValue :=
  (m.find? (fun p => p.1 = k)).map (fun p => p.2)

/-- JS `map.get(k)`: `undefined` when the key is absent. -/
def mapGet (m : JsMap) (k : JsValue) : JsValue :=
  (mapGetQ m k).getD (JsValue.undef)

/-! ## Constant tables of the source -/

def fileAnVILDataIngestion : String := "anvil-data-ingestion-attributes.tsv"

def fileAnVILDataIngestionAccession : String := "anvil-data-ingestion-attributes-accession.tsv"

def fileTerraDataIngestionCounts : String := "terra-data-ingestion-attributes-counts.tsv"

def fileTerraDataIngestionFileSize : String := "terra-data-ingestion-attributes-file-size.tsv"

def ALLOW_LIST_WORKSPACE_FIELD_ARRAY : List String :=
  ["consentShortNames", "dataTypes", "diseases"]

def ALLOW_LIST_WORKSPACE_FIELD_NUMBER : List String :=
  ["size", "samples", "subjects"]

def ALLOW_LIST_WORKSPACE_ACCESS_PUBLIC : List String :=
  ["1000G-high-coverage-2019"]

/-- The property/value pairs of the `WORKSPACE_CONSORTIUM_DISPLAY_VALUE`
object, in source order. -/
def WORKSPACE_CONSORTIUM_DISPLAY_VALUE_PAIRS : List (String × String) :=
  [("CCDG", "CCDG"),
   ("CMG", "CMG"),
   ("EMERGE", "eMERGE"),
   ("GTEX", "GTEx (v8)"),
   ("NHGRI", "NHGRI"),
   ("PAGE", "PAGE"),
   ("THOUSANDGENOMES", "1000 Genomes")]

/-- `WORKSPACE_CONSORTIUM_DISPLAY_VALUE[k]` as a property lookup. -/
def WORKSPACE_CONSORTIUM_DISPLAY_VALUE (k : String) : Option String :=
  (WORKSPACE_CONSORTIUM_DISPLAY_VALUE_PAIRS.find? (fun p => p.1 = k)).map
    (fun p => p.2)

/-- The property/value pairs of the `INGESTION_HEADERS_TO_WORKSPACE_KEY`
object, in source order. -/
def INGESTION_HEADERS_TO_WORKSPACE_KEY_PAIRS : List (String × String) :=
  [("CONSENT_SHORT_NAMES", "library:dataUseRestriction"),
   ("DATA_TYPES", "library:datatype.items"),
   ("DB_GAP_ID", "study_accession"),
   ("DISEASES", "library:indication"),
   ("PROJECT_ID", "name"),
   ("LIBRARY_PROJECT_NAME", "library:projectName"),
   ("SAMPLES", "Sample Count"),
   ("SIZE", "File Size"),
   ("SUBJECTS", "library:numSubjects"),
   ("WORKSPACE", "Workspace")]

/-- `INGESTION_HEADERS_TO_WORKSPACE_KEY[k]` as a property lookup. -/
def INGESTION_HEADERS_TO_WORKSPACE_KEY (k : String) : Option String :=
  (INGESTION_HEADERS_TO_WORKSPACE_KEY_PAIRS.find? (fun p => p.1 = k)).map
    (fun p => p.2)

/-- The property/value pairs of the `HEADERS_TO_WORKSPACE_KEY` object, in
source order (its computed property names are already evaluated to the
header strings they denote). -/
def HEADERS_TO_WORKSPACE_KEY_PAIRS : List (String × String) :=
  [("ACCESS", "access"),
   ("library:dataUseRestriction", "consentShortNames"),
   ("CONSORTIUM", "consortium"),
   ("library:datatype.items", "dataTypes"),
   ("study_accession", "dbGapId"),
   ("DB_GAP_ID_ACCESSION", "dbGapIdAccession"),
   ("library:indication", "diseases"),
   ("name", "projectId"),
   ("Sample Count", "samples"),
   ("File Size", "size"),
   ("library:numSubjects", "subjects"),
   ("Workspace", "projectId")]

/-- `HEADERS_TO_WORKSPACE_KEY[k]` as a property lookup. -/
def HEADERS_TO_WORKSPACE_KEY (k : String) : Option String :=
  (HEADERS_TO_WORKSPACE_KEY_PAIRS.find? (fun p => p.1 = k)).map (fun p => p.2)

/-! ## Field coercion -/

/-- `formatIngestedDatum(datum, key)`: the consortium field is upper-cased and
looked up in the display table, with JS `||` fallback to the upper-cased form. -/
def formatIngestedDatum (datum : String) (key : Option String) : String :=
  if key = some "consortium" then
    let consortium := toUpperStr datum
    match WORKSPACE_CONSORTIUM_DISPLAY_VALUE consortium with
    | some v => if v = "" then consortium else v
    | none => consortium
  else datum

/-- `buildIngestedDatum(datum, key)`: format, then coerce by allow-list
(array fields split on comma; number fields `Number(...)` after
stripping commas; everything else stays a string).  `key` is `none` when the
JS `key` is `undefined` (both `includes` checks are then false). -/
def buildIngestedDatum (datum : String) (key : Option String) : JsValue :=
  let value := formatIngestedDatum datum key
  match key with
  | some k =>
    if ALLOW_LIST_WORKSPACE_FIELD_ARRAY.contains k then
      .arr (splitStr ',' value)
    else if ALLOW_LIST_WORKSPACE_FIELD_NUMBER.contains k then
      .num (jsNumberOfString (stripCommasStr value))
    else .str value
  | none => .str value

/-- `getIngestedDatumKeyValuePair(datum, header)`. -/
def getIngestedDatumKeyValuePair (datum : String) (header : Option String) :
    Option String × JsValue :=
  let key := header.bind HEADERS_TO_WORKSPACE_KEY
  (key, buildIngestedDatum datum key)

/-- `isHeaderKeyOrValue(header, keyPair, valuePair)` (JS `===`, where
`undefined === undefined` is true, hence `Option` equality). -/
def isHeaderKeyOrValue (header : Option String) (keyPair valuePair : String) : Bool :=
  decide (header = INGESTION_HEADERS_TO_WORKSPACE_KEY keyPair) ||
    decide (header = INGESTION_HEADERS_TO_WORKSPACE_KEY valuePair)

/-! ## Row folds

Both `buildWorkspaceRow` and `buildKeyValuePair` reduce a split content row
into an object, pairing each datum positionally with `headers[i]`.
`foldColsAux action i cols acc` is that indexed `reduce`. -/

def foldColsAux (action : Nat → String → RecordObj → RecordObj) :
    Nat → List String → RecordObj → RecordObj
  | _, [], acc => acc
  | i, d :: rest, acc => foldColsAux action (i + 1) rest (action i d acc)

/-- One step of the `buildWorkspaceRow` reduce: include the datum only when
its header has a canonical key (JS `if (key)`: defined and non-empty). -/
def rowAction (headers : List String) (i : Nat) (datum : String)
    (acc : RecordObj) : RecordObj :=
  let header := headers[i]?
  let kv := getIngestedDatumKeyValuePair datum header
  match kv.1 with
  | some k => if k = "" then acc else objSet acc k kv.2
  | none => acc

/-- One step of the `buildKeyValuePair` inner reduce: include the datum only
when its header is the key or the value column. -/
def kvAction (headers : List String) (keyPair valuePair : String) (i : Nat)
    (datum : String) (acc : RecordObj) : RecordObj :=
  let header := headers[i]?
  if isHeaderKeyOrValue header keyPair valuePair then
    let kv := getIngestedDatumKeyValuePair datum header
    objSetOpt acc kv.1 kv.2
  else acc

/-- `buildKeyValuePair(contentRows, headers, keyPair, valuePair)`. -/
def buildKeyValuePair (contentRows headers : List String)
    (keyPair valuePair : String) : JsMap :=
  (contentRows.drop 1).foldl
    (fun acc contentRow =>
      let row := foldColsAux (kvAction headers keyPair valuePair) 0
        (splitStr '\t' contentRow) []
      let keyKeyPair :=
        (INGESTION_HEADERS_TO_WORKSPACE_KEY keyPair).bind HEADERS_TO_WORKSPACE_KEY
      let keyValuePair :=
        (INGESTION_HEADERS_TO_WORKSPACE_KEY valuePair).bind HEADERS_TO_WORKSPACE_KEY
      mapSet acc (objGetOpt row keyKeyPair) (objGetOpt row keyValuePair))
    []

/-- `buildIngestedHeaders(contentRows)`:
`contentRows.slice(0, 1).toString().split("\t")`. -/
def buildIngestedHeaders (contentRows : List String) : List String :=
  splitStr '\t' (String.intercalate "," (contentRows.take 1))

/-- `buildWorkspaceRow(contentRow, headers, sampleCountByProjectId,
studyIdByProjectId, fileSizeByProjectId)`.  The external
`getStudyGapAccession` (dashboard-xml.service.js, not under src/) is the
`resolver` parameter.  A JS `TypeError` (projectId not a string, or the
consortium segment `undefined`) is `Except.error`. -/
def buildWorkspaceRow (resolver : JsValue → JsValue) (contentRow : String)
    (headers : List String)
    (sampleCountByProjectId studyIdByProjectId fileSizeByProjectId : JsMap) :
    Except String RecordObj :=
  let row := foldColsAux (rowAction headers) 0 (splitStr '\t' contentRow) []
  let keyAccess := HEADERS_TO_WORKSPACE_KEY "ACCESS"
  let keyConsortium := HEADERS_TO_WORKSPACE_KEY "CONSORTIUM"
  let keyProjectId :=
    (INGESTION_HEADERS_TO_WORKSPACE_KEY "PROJECT_ID").bind HEADERS_TO_WORKSPACE_KEY
  let keySamplesCount :=
    (INGESTION_HEADERS_TO_WORKSPACE_KEY "SAMPLES").bind HEADERS_TO_WORKSPACE_KEY
  let keySize :=
    (INGESTION_HEADERS_TO_WORKSPACE_KEY "SIZE").bind HEADERS_TO_WORKSPACE_KEY
  let keyStudyAccession := HEADERS_TO_WORKSPACE_KEY "DB_GAP_ID_ACCESSION"
  let keyStudyId :=
    (INGESTION_HEADERS_TO_WORKSPACE_KEY "DB_GAP_ID").bind HEADERS_TO_WORKSPACE_KEY
  match objGetOpt row keyProjectId with
  | .str projectId =>
    let access :=
      if ALLOW_LIST_WORKSPACE_ACCESS_PUBLIC.contains projectId then "Public"
      else "Private"
    match (splitStr '_' projectId)[1]? with
    | some consortium =>
      let consortiumDisplayValue := buildIngestedDatum consortium keyConsortium
      let samplesCount :=
        jsOr (mapGet sampleCountByProjectId (.str projectId)) (.num (.dec 0 0))
      let size :=
        jsOr (mapGet fileSizeByProjectId (.str projectId)) (.num (.dec 0 0))
      let studyId := mapGet studyIdByProjectId (.str projectId)
      let studyAccession := resolver studyId
      let workspace : RecordObj :=
        objSetOpt (objSetOpt (objSetOpt (objSetOpt (objSetOpt (objSetOpt []
          keyAccess (.str access))
          keyConsortium consortiumDisplayValue)
          keySamplesCount samplesCount)
          keySize size)
          keyStudyAccession studyAccession)
          keyStudyId studyId
      .ok (objAssign row workspace)
    | none => .error "TypeError: cannot read toUpperCase of undefined"
  | _ => .error "TypeError: cannot read split of a non-string"

/-- JS `Promise.all` over an ordered list of row transformations: fulfil with
the list of results, or reject with the first rejection. -/
def promiseAll (f : String → Except String RecordObj) :
    List String → Except String (List RecordObj)
  | [] => .ok []
  | x :: xs =>
    match f x with
    | .ok y =>
      match promiseAll f xs with
      | .ok ys => .ok (y :: ys)
      | .error e => .error e
    | .error e => .error e

/-- `buildWorkspaces(...)`: transform every non-header row;
`Promise.all` rejects when any row rejects. -/
def buildWorkspaces (resolver : JsValue → JsValue)
    (contentRows headers : List String)
    (sampleCountByProjectId studyIdByProjectId fileSizeByProjectId : JsMap) :
    Except String (List RecordObj) :=
  promiseAll
    (fun contentRow =>
      buildWorkspaceRow resolver contentRow headers sampleCountByProjectId
        studyIdByProjectId fileSizeByProjectId)
    (contentRows.drop 1)

/-! ## File access and the pipeline -/

/-- The filesystem visible to the service: content by file name. -/
abbrev FileSystem := String → Option String

/-- `getFileContents(fileName)`: `(console diagnostics, lines)`.
Present file: split on CRLF.  Absent file: log an error naming the file and
return the empty sequence. -/
def getFileContents (fs : FileSystem) (fileName : String) :
    List String × List String :=
  match fs fileName with
  | some fileContent => ([], splitCRLFStr fileContent)
  | none => (["Error: file " ++ fileName ++ " cannot be found."], [])

/-- `getIngestedData(fileName)`: `(headers, contentRows)`. -/
def getIngestedData (fs : FileSystem) (fileName : String) :
    List String × List String :=
  let contentRows := (getFileContents fs fileName).2
  (buildIngestedHeaders contentRows, contentRows)

/-- `getFileSizeByProjectId()`. -/
def getFileSizeByProjectId (fs : FileSystem) : JsMap :=
  let p := getIngestedData fs fileTerraDataIngestionFileSize
  buildKeyValuePair p.2 p.1 "WORKSPACE" "SIZE"

/-- `getSampleCountByProjectId()`. -/
def getSampleCountByProjectId (fs : FileSystem) : JsMap :=
  let p := getIngestedData fs fileTerraDataIngestionCounts
  buildKeyValuePair p.2 p.1 "WORKSPACE" "SAMPLES"

/-- `getStudyIdByProjectId()`. -/
def getStudyIdByProjectId (fs : FileSystem) : JsMap :=
  let p := getIngestedData fs fileAnVILDataIngestionAccession
  buildKeyValuePair p.2 p.1 "PROJECT_ID" "DB_GAP_ID"

/-- `getWorkspaces(sampleCountByProjectId, studyIdByProjectId,
fileSizeByProjectId)`. -/
def getWorkspaces (resolver : JsValue → JsValue) (fs : FileSystem)
    (sampleCountByProjectId studyIdByProjectId fileSizeByProjectId : JsMap) :
    Except String (List RecordObj) :=
  let p := getIngestedData fs fileAnVILDataIngestion
  buildWorkspaces resolver p.2 p.1 sampleCountByProjectId studyIdByProjectId
    fileSizeByProjectId

/-- A string render of a `JsValue`, used only to order records in the
modelled sort. -/
def jsValueSortKey : JsValue → String
  | .str s => s
  | .num .nan => "NaN"
  | .num (.dec m s) => toString m ++ "e" ++ toString s
  | .arr xs => String.intercalate "," xs
  | .undef => ""

/-- Boolean strict lexicographic order on character lists. -/
def strLtB : List Char → List Char → Bool
  | [], [] => false
  | [], _ :: _ => true
  | _ :: _, [] => false
  | a :: as, b :: bs => if a < b then true else if b < a then false else strLtB as bs

/-- Record order by group field then tie-break field. -/
def recordLE (groupKey tieKey : Option String) (a b : RecordObj) : Bool :=
  let ga := (jsValueSortKey (objGetOpt a groupKey)).data
  let gb := (jsValueSortKey (objGetOpt b groupKey)).data
  let ta := (jsValueSortKey (objGetOpt a tieKey)).data
  let tb := (jsValueSortKey (objGetOpt b tieKey)).data
  strLtB ga gb || (decide (ga = gb) && (strLtB ta tb || decide (ta = tb)))

/-- Stable insertion into a sorted list. -/
def insertSorted (le : RecordObj → RecordObj → Bool) (x : RecordObj) :
    List RecordObj → List RecordObj
  | [] => [x]
  | y :: ys => if le x y then x :: y :: ys else y :: insertSorted le x ys

/-- Modelled from the spec: `sortDataByDuoTypes` lives in
`dashboard-sort.service.js`, which is not under src/.  Per the spec
(sections 2, 4.5 and 6) it is the external Sort Service exposing
`sort(records, groupFieldName, tieBreakFieldName)`, sorting the record
sequence first by the group field and then by the tie-break field.
Modelled as a stable insertion sort under `recordLE`. -/
def sortDataByDuoTypes (records : List RecordObj) (groupKey tieKey : Option String) :
    List RecordObj :=
  records.foldr (fun r acc => insertSorted (recordLE groupKey tieKey) r acc) []

/-- `getIngestedWorkspaces()`: build the three lookups, transform all rows,
sort.  A rejected row promise rejects the whole call (`Except.error`). -/
def getIngestedWorkspaces (resolver : JsValue → JsValue) (fs : FileSystem) :
    Except String (List RecordObj) :=
  let studyIdByProjectId := getStudyIdByProjectId fs
  let sampleCountByProjectId := getSampleCountByProjectId fs
  let fileSizeByProjectId := getFileSizeByProjectId fs
  match getWorkspaces resolver fs sampleCountByProjectId studyIdByProjectId
    fileSizeByProjectId with
  | .ok workspaces =>
    .ok (sortDataByDuoTypes workspaces (HEADERS_TO_WORKSPACE_KEY "CONSORTIUM")
      ((INGESTION_HEADERS_TO_WORKSPACE_KEY "PROJECT_ID").bind HEADERS_TO_WORKSPACE_KEY))
  | .error e => .error e

/-! ## The derived `workspace` object, and the spec-side Lookup Builder -/

/-- The six derived properties written over the coerced row, in write order. -/
def derivedFields (resolver : JsValue → JsValue) (pid consortium : String)
    (sampleCountByProjectId studyIdByProjectId fileSizeByProjectId : JsMap) :
    RecordObj :=
  [("access",
    .str (if ALLOW_LIST_WORKSPACE_ACCESS_PUBLIC.contains pid then "Public"
          else "Private")),
   ("consortium", buildIngestedDatum consortium (some "consortium")),
   ("samples", jsOr (mapGet sampleCountByProjectId (.str pid)) (.num (.dec 0 0))),
   ("size", jsOr (mapGet fileSizeByProjectId (.str pid)) (.num (.dec 0 0))),
   ("dbGapIdAccession", resolver (mapGet studyIdByProjectId (.str pid))),
   ("dbGapId", mapGet studyIdByProjectId (.str pid))]

/-! spec-side Lookup Builder -/

def lookupRowKey (ki : Nat) (kkey : String) (contentRow : String) : JsValue :=
  match (splitStr '\t' contentRow)[ki]? with
  | some d => buildIngestedDatum d (some kkey)
  | none => .undef

def lookupRowValue (vi : Nat) (vkey : String) (contentRow : String) : JsValue :=
  match (splitStr '\t' contentRow)[vi]? with
  | some d => buildIngestedDatum d (some vkey)
  | none => .undef

def lookupBuilderSpec (contentRows : List String) (ki vi : Nat)
    (kkey vkey : String) : JsMap :=
  (contentRows.drop 1).foldl
    (fun acc contentRow =>
      mapSet acc (lookupRowKey ki kkey contentRow)
        (lookupRowValue vi vkey contentRow))
    []

/-! ## General lemmas about the embedding -/

/-! object lemmas -/

theorem objGetQ_objSet_self (r : RecordObj) (k : String) (v : JsValue) :
    objGetQ (objSet r k v) k = some v := by
  induction r with
  | nil => simp [objSet, objGetQ]
  | cons p r ih =>
    by_cases hp : p.1 = k
    · simp [objSet, hp, objGetQ]
    · simp [objSet, hp, objGetQ, List.find?] at ih ⊢
      simpa [hp] using ih

theorem objGetQ_objSet_ne (r : RecordObj) (kk k : String) (v : JsValue)
    (h : kk ≠ k) : objGetQ (objSet r kk v) k = objGetQ r k := by
  induction r with
  | nil => simp [objSet, objGetQ, List.find?, h]
  | cons p r ih =>
    by_cases hp : p.1 = kk
    · simp [objSet, hp, objGetQ, List.find?, h, hp ▸ h]
    · simp [objSet, hp, objGetQ, List.find?] at ih ⊢
      by_cases hpk : p.1 = k <;> simp [hpk, ih]

theorem objGet_objSet_self (r : RecordObj) (k : String) (v : JsValue) :
    objGet (objSet r k v) k = v := by
  simp [objGet, objGetQ_objSet_self]

theorem objGet_objSet_ne (r : RecordObj) (kk k : String) (v : JsValue)
    (h : kk ≠ k) : objGet (objSet r kk v) k = objGet r k := by
  simp [objGet, objGetQ_objSet_ne r kk k v h]

theorem objGetQ_objAssign_of_notMem (b a : RecordObj) (k : String)
    (h : ∀ p ∈ b, p.1 ≠ k) : objGetQ (objAssign a b) k = objGetQ a k := by
  induction b generalizing a with
  | nil => simp [objAssign]
  | cons p b ih =>
    have hp : p.1 ≠ k := h p (by simp)
    have hrest : ∀ q ∈ b, q.1 ≠ k := fun q hq => h q (by simp [hq])
    simp only [objAssign, List.foldl_cons] at ih ⊢
    rw [ih _ hrest, objGetQ_objSet_ne _ _ _ _ hp]

/-! map lemmas -/

theorem mapGetQ_mapSet_self (m : JsMap) (k v : JsValue) :
    mapGetQ (mapSet m k v) k = some v := by
  induction m with
  | nil => simp [mapSet, mapGetQ]
  | cons p m ih =>
    by_cases hp : p.1 = k
    · simp [mapSet, hp, mapGetQ]
    · simp [mapSet, hp, mapGetQ, List.find?] at ih ⊢
      simpa [hp] using ih

/-! fold lemmas -/

theorem foldColsAux_preserve (action : Nat → String → RecordObj → RecordObj)
    (k : String) (cols : List String) :
    ∀ (i : Nat) (acc : RecordObj),
    (∀ j d acc2, j < cols.length → cols[j]? = some d →
      objGetQ (action (i + j) d acc2) k = objGetQ acc2 k) →
    objGetQ (foldColsAux action i cols acc) k = objGetQ acc k := by
  induction cols with
  | nil => intro i acc _; rfl
  | cons c rest ih =>
    intro i acc h
    have h0 : objGetQ (action i c acc) k = objGetQ acc k := by
      have := h 0 c acc (by simp) (by simp)
      simpa using this
    have hrest : ∀ j d acc2, j < rest.length → rest[j]? = some d →
        objGetQ (action (i + 1 + j) d acc2) k = objGetQ acc2 k := by
      intro j d acc2 hj hd
      have := h (j + 1) d acc2 (by simpa using Nat.succ_lt_succ hj) (by simpa using hd)
      have harith : i + (j + 1) = i + 1 + j := by omega
      rwa [harith] at this
    rw [foldColsAux]
    rw [ih (i + 1) (action i c acc) hrest, h0]

theorem foldColsAux_last_set (action : Nat → String → RecordObj → RecordObj)
    (k : String) (v : JsValue) (cols : List String) :
    ∀ (i : Nat) (acc : RecordObj) (p : Nat) (d : String),
    cols[p]? = some d →
    (∀ acc2, objGetQ (action (i + p) d acc2) k = some v) →
    (∀ j dj acc2, p < j → j < cols.length → cols[j]? = some dj →
      objGetQ (action (i + j) dj acc2) k = objGetQ acc2 k) →
    objGetQ (foldColsAux action i cols acc) k = some v := by
  induction cols with
  | nil => intro i acc p d hd _ _; simp at hd
  | cons c rest ih =>
    intro i acc p d hd hset hafter
    match p with
    | 0 =>
      simp at hd
      subst hd
      rw [foldColsAux]
      have hrest : ∀ j dj acc2, j < rest.length → rest[j]? = some dj →
          objGetQ (action (i + 1 + j) dj acc2) k = objGetQ acc2 k := by
        intro j dj acc2 hj hdj
        have := hafter (j + 1) dj acc2 (Nat.succ_pos j)
          (by simpa using Nat.succ_lt_succ hj) (by simpa using hdj)
        have harith : i + (j + 1) = i + 1 + j := by omega
        rwa [harith] at this
      rw [foldColsAux_preserve action k rest (i + 1) (action i c acc) hrest]
      simpa using hset acc
    | q + 1 =>
      rw [foldColsAux]
      apply ih (i + 1) (action i c acc) q d (by simpa using hd)
      · intro acc2
        have := hset acc2
        have harith : i + (q + 1) = i + 1 + q := by omega
        rwa [harith] at this
      · intro j dj acc2 hq hj hdj
        have := hafter (j + 1) dj acc2 (Nat.succ_lt_succ hq)
          (by simpa using Nat.succ_lt_succ hj) (by simpa using hdj)
        have harith : i + (j + 1) = i + 1 + j := by omega
        rwa [harith] at this

/-! rowAction characterization -/

theorem rowAction_no_key (headers : List String) (j : Nat) (d : String)
    (acc : RecordObj) (k : String)
    (h : (headers[j]?).bind HEADERS_TO_WORKSPACE_KEY ≠ some k) :
    objGetQ (rowAction headers j d acc) k = objGetQ acc k := by
  unfold rowAction getIngestedDatumKeyValuePair
  cases hb : (headers[j]?).bind HEADERS_TO_WORKSPACE_KEY with
  | none => simp [hb]
  | some kk =>
    have hne : kk ≠ k := fun he => h (by rw [hb, he])
    by_cases hkk : kk = ""
    · simp [hb, hkk]
    · simp [hb, hkk, objGetQ_objSet_ne _ _ _ _ hne]

theorem rowAction_key (headers : List String) (j : Nat) (d : String)
    (acc : RecordObj) (k : String)
    (hk : (headers[j]?).bind HEADERS_TO_WORKSPACE_KEY = some k) (hne : k ≠ "") :
    objGetQ (rowAction headers j d acc) k =
      some (buildIngestedDatum d (some k)) := by
  unfold rowAction getIngestedDatumKeyValuePair
  simp [hk, hne, objGetQ_objSet_self]

/-! canonical keys of the header table are non-empty -/

theorem headersKey_ne_empty (h k : String)
    (hk : HEADERS_TO_WORKSPACE_KEY h = some k) : k ≠ "" := by
  unfold HEADERS_TO_WORKSPACE_KEY at hk
  cases hfind : HEADERS_TO_WORKSPACE_KEY_PAIRS.find? (fun p => p.1 = h) with
  | none => simp [hfind] at hk
  | some p =>
    have hmem := List.mem_of_find?_eq_some hfind
    have hall : ∀ q ∈ HEADERS_TO_WORKSPACE_KEY_PAIRS, q.2 ≠ "" := by decide
    simp [hfind] at hk
    exact hk ▸ hall p hmem

/-! structure of a successful buildWorkspaceRow -/

theorem buildWorkspaceRow_ok (resolver : JsValue → JsValue) (contentRow : String)
    (headers : List String) (sm st fm : JsMap) (rec : RecordObj)
    (hok : buildWorkspaceRow resolver contentRow headers sm st fm = .ok rec) :
    ∃ pid consortium,
      objGet (foldColsAux (rowAction headers) 0 (splitStr '\t' contentRow) [])
        "projectId" = .str pid ∧
      (splitStr '_' pid)[1]? = some consortium ∧
      rec = objAssign
        (foldColsAux (rowAction headers) 0 (splitStr '\t' contentRow) [])
        (derivedFields resolver pid consortium sm st fm) := by
  unfold buildWorkspaceRow at hok
  dsimp only [] at hok
  split at hok
  · next pid hpid =>
    split at hok
    · next consortium hcons =>
      refine ⟨pid, consortium, ?_, ?_, ?_⟩
      · exact hpid
      · exact hcons
      · have := hok
        injection this with h2
        exact h2.symm
    · exact absurd hok (by simp)
  · exact absurd hok (by simp)

/-! reads from the merged record -/

theorem objGet_merge_not_derived (resolver : JsValue → JsValue)
    (pid consortium : String) (sm st fm : JsMap) (row : RecordObj) (k : String)
    (hk : k ∉ ["access", "consortium", "samples", "size", "dbGapIdAccession",
      "dbGapId"]) :
    objGet (objAssign row (derivedFields resolver pid consortium sm st fm)) k =
      objGet row k := by
  have h : ∀ p ∈ derivedFields resolver pid consortium sm st fm, p.1 ≠ k := by
    intro p hp
    simp [derivedFields] at hp
    rcases hp with h | h | h | h | h | h <;>
      (rw [show p.1 = _ from congrArg Prod.fst h]; intro he; apply hk; simp [he.symm])
  simp [objGet, objGetQ_objAssign_of_notMem _ _ _ h]

theorem objGetQ_merge_access (resolver : JsValue → JsValue)
    (pid consortium : String) (sm st fm : JsMap) (row : RecordObj) :
    objGetQ (objAssign row (derivedFields resolver pid consortium sm st fm))
      "access" =
      some (.str (if ALLOW_LIST_WORKSPACE_ACCESS_PUBLIC.contains pid then "Public"
        else "Private")) := by
  simp [derivedFields, objAssign, objGetQ_objSet_ne, objGetQ_objSet_self]

theorem objGetQ_merge_consortium (resolver : JsValue → JsValue)
    (pid consortium : String) (sm st fm : JsMap) (row : RecordObj) :
    objGetQ (objAssign row (derivedFields resolver pid consortium sm st fm))
      "consortium" = some (buildIngestedDatum consortium (some "consortium")) := by
  simp [derivedFields, objAssign, objGetQ_objSet_ne, objGetQ_objSet_self]

theorem objGetQ_merge_samples (resolver : JsValue → JsValue)
    (pid consortium : String) (sm st fm : JsMap) (row : RecordObj) :
    objGetQ (objAssign row (derivedFields resolver pid consortium sm st fm))
      "samples" = some (jsOr (mapGet sm (.str pid)) (.num (.dec 0 0))) := by
  simp [derivedFields, objAssign, objGetQ_objSet_ne, objGetQ_objSet_self]

theorem objGetQ_merge_size (resolver : JsValue → JsValue)
    (pid consortium : String) (sm st fm : JsMap) (row : RecordObj) :
    objGetQ (objAssign row (derivedFields resolver pid consortium sm st fm))
      "size" = some (jsOr (mapGet fm (.str pid)) (.num (.dec 0 0))) := by
  simp [derivedFields, objAssign, objGetQ_objSet_ne, objGetQ_objSet_self]

/-! truthiness -/

theorem jsTruthy_ne_nan_undef (v : JsValue) (h : jsTruthy v = true) :
    v ≠ .num .nan ∧ v ≠ .undef := by
  cases v with
  | num n => cases n <;> simp_all [jsTruthy]
  | _ => simp_all [jsTruthy]

theorem jsOr_zero_not_nan (v : JsValue) :
    jsOr v (.num (.dec 0 0)) ≠ .num .nan ∧ jsOr v (.num (.dec 0 0)) ≠ .undef := by
  unfold jsOr
  by_cases h : jsTruthy v = true
  · simpa [h] using jsTruthy_ne_nan_undef v h
  · simp at h
    simp [h]

/-! mapM inversion, sort membership -/

theorem promiseAll_ok_mem (f : String → Except String RecordObj)
    (l : List String) (recs : List RecordObj) (h : promiseAll f l = .ok recs)
    (rec : RecordObj) (hrec : rec ∈ recs) : ∃ x ∈ l, f x = .ok rec := by
  induction l generalizing recs with
  | nil =>
    unfold promiseAll at h
    cases h
    simp at hrec
  | cons x xs ih =>
    unfold promiseAll at h
    cases hfx : f x with
    | error e => simp [hfx] at h
    | ok y =>
      cases hxs : promiseAll f xs with
      | error e => simp [hfx, hxs] at h
      | ok ys =>
        simp [hfx, hxs] at h
        subst h
        rcases List.mem_cons.mp hrec with h1 | h1
        · exact ⟨x, by simp, by rw [hfx, h1]⟩
        · obtain ⟨z, hz, hfz⟩ := ih ys hxs h1
          exact ⟨z, by simp [hz], hfz⟩

theorem insertSorted_mem (le : RecordObj → RecordObj → Bool) (x a : RecordObj)
    (l : List RecordObj) : a ∈ insertSorted le x l ↔ a = x ∨ a ∈ l := by
  induction l with
  | nil => simp [insertSorted]
  | cons y ys ih =>
    unfold insertSorted
    by_cases hle : le x y = true
    · simp [hle]
    · simp [hle, ih]
      tauto

theorem sortDataByDuoTypes_mem (records : List RecordObj)
    (groupKey tieKey : Option String) (a : RecordObj) :
    a ∈ sortDataByDuoTypes records groupKey tieKey ↔ a ∈ records := by
  induction records with
  | nil => simp [sortDataByDuoTypes]
  | cons r rs ih =>
    unfold sortDataByDuoTypes at ih ⊢
    rw [List.foldr_cons, insertSorted_mem, ih, List.mem_cons]

/-! foldl congruence -/

theorem foldl_congr_on {α β : Type} (f g : β → α → β) (l : List α) (b : β)
    (h : ∀ a ∈ l, ∀ x, f x a = g x a) : l.foldl f b = l.foldl g b := by
  induction l generalizing b with
  | nil => rfl
  | cons a l ih =>
    rw [List.foldl_cons, List.foldl_cons, h a (by simp) b]
    exact ih _ (fun a2 ha2 x => h a2 (by simp [ha2]) x)

theorem mapGetQ_mapSet_ne (m : JsMap) (kk k v : JsValue) (h : kk ≠ k) :
    mapGetQ (mapSet m kk v) k = mapGetQ m k := by
  induction m with
  | nil => simp [mapSet, mapGetQ, List.find?, h]
  | cons p m ih =>
    by_cases hp : p.1 = kk
    · simp [mapSet, hp, mapGetQ, List.find?, h, hp ▸ h]
    · simp [mapSet, hp, mapGetQ, List.find?] at ih ⊢
      by_cases hpk : p.1 = k <;> simp [hpk, ih]

/-! pipeline inversion -/

theorem getIngestedWorkspaces_ok_mem (resolver : JsValue → JsValue)
    (fs : FileSystem) (recs : List RecordObj)
    (h : getIngestedWorkspaces resolver fs = .ok recs)
    (rec : RecordObj) (hrec : rec ∈ recs) :
    ∃ contentRow ∈ ((getIngestedData fs fileAnVILDataIngestion).2).drop 1,
      buildWorkspaceRow resolver contentRow
        (getIngestedData fs fileAnVILDataIngestion).1
        (getSampleCountByProjectId fs) (getStudyIdByProjectId fs)
        (getFileSizeByProjectId fs) = .ok rec := by
  unfold getIngestedWorkspaces at h
  dsimp only [] at h
  split at h
  · next ws hws =>
    injection h with h2
    rw [← h2, sortDataByDuoTypes_mem] at hrec
    unfold getWorkspaces buildWorkspaces at hws
    dsimp only [] at hws
    exact promiseAll_ok_mem _ _ _ hws rec hrec
  · exact absurd h (by simp)

theorem buildWorkspaceRow_ok_projectId (resolver : JsValue → JsValue)
    (contentRow : String) (headers : List String) (sm st fm : JsMap)
    (rec : RecordObj)
    (hok : buildWorkspaceRow resolver contentRow headers sm st fm = .ok rec) :
    ∃ pid, objGet rec "projectId" = .str pid ∧ pid ≠ "" := by
  obtain ⟨pid, c, hpid, hc, hrec⟩ :=
    buildWorkspaceRow_ok resolver contentRow headers sm st fm rec hok
  refine ⟨pid, ?_, ?_⟩
  · rw [hrec, objGet_merge_not_derived _ _ _ _ _ _ _ _ (by decide), hpid]
  · intro he
    subst he
    rw [show splitStr '_' "" = [""] from rfl] at hc
    simp at hc

/-! kvAction characterization -/

theorem kvAction_no_match (headers : List String) (keyPair valuePair : String)
    (j : Nat) (d : String) (acc : RecordObj)
    (h : isHeaderKeyOrValue headers[j]? keyPair valuePair = false) :
    kvAction headers keyPair valuePair j d acc = acc := by
  unfold kvAction
  simp [h]

theorem kvAction_match (headers : List String) (keyPair valuePair : String)
    (j : Nat) (d : String) (acc : RecordObj) (hd : String)
    (hh : headers[j]? = some hd)
    (hm : isHeaderKeyOrValue (some hd) keyPair valuePair = true) :
    kvAction headers keyPair valuePair j d acc =
      objSetOpt acc (HEADERS_TO_WORKSPACE_KEY hd)
        (buildIngestedDatum d (HEADERS_TO_WORKSPACE_KEY hd)) := by
  unfold kvAction getIngestedDatumKeyValuePair
  rw [hh]
  simp [hm]

/-! last-write-wins over a fold of mapSet -/

theorem mapGetQ_foldl_mapSet (f g : String → JsValue) (l : List String)
    (m0 : JsMap) (K : JsValue) :
    mapGetQ (l.foldl (fun acc cr => mapSet acc (f cr) (g cr)) m0) K =
      (match l.reverse.find? (fun cr => f cr = K) with
       | some cr => some (g cr)
       | none => mapGetQ m0 K) := by
  induction l generalizing m0 with
  | nil => simp
  | cons c rest ih =>
    rw [List.foldl_cons, ih]
    rw [List.reverse_cons, List.find?_append]
    cases hf : rest.reverse.find? (fun cr => f cr = K) with
    | some cr => simp [hf]
    | none =>
      simp only [hf, Option.none_orElse]
      by_cases hc : f c = K
      · subst hc
        simp [List.find?, mapGetQ_mapSet_self]
      · simp [List.find?, hc, mapGetQ_mapSet_ne _ _ _ _ hc]

theorem kvAction_other_key (headers : List String)
    (keyPair valuePair hk hv kkey vkey : String) (ki vi : Nat)
    (hkp : INGESTION_HEADERS_TO_WORKSPACE_KEY keyPair = some hk)
    (hvp : INGESTION_HEADERS_TO_WORKSPACE_KEY valuePair = some hv)
    (hvkey : HEADERS_TO_WORKSPACE_KEY hv = some vkey)
    (hkey : kkey ≠ vkey)
    (huniq : ∀ j h2, headers[j]? = some h2 → (h2 = hk → j = ki) ∧ (h2 = hv → j = vi))
    (j : Nat) (hj : j ≠ ki) (dj : String) (acc2 : RecordObj) :
    objGetQ (kvAction headers keyPair valuePair j dj acc2) kkey =
      objGetQ acc2 kkey := by
  cases hhj : headers[j]? with
  | none =>
    rw [kvAction_no_match]
    rw [hhj]
    unfold isHeaderKeyOrValue
    rw [hkp, hvp]
    simp
  | some h2 =>
    obtain ⟨hik, hiv⟩ := huniq j h2 hhj
    by_cases h2k : h2 = hk
    · exact absurd (hik h2k) hj
    · by_cases h2v : h2 = hv
      · subst h2v
        rw [kvAction_match headers _ _ j dj acc2 h2 hhj
          (by unfold isHeaderKeyOrValue; rw [hkp, hvp]; simp)]
        rw [hvkey]
        unfold objSetOpt
        exact objGetQ_objSet_ne _ _ _ _ (fun he => hkey he.symm)
      · rw [kvAction_no_match]
        rw [hhj]
        unfold isHeaderKeyOrValue
        rw [hkp, hvp]
        simp [h2k, h2v]

theorem kvAction_other_value (headers : List String)
    (keyPair valuePair hk hv kkey vkey : String) (ki vi : Nat)
    (hkp : INGESTION_HEADERS_TO_WORKSPACE_KEY keyPair = some hk)
    (hvp : INGESTION_HEADERS_TO_WORKSPACE_KEY valuePair = some hv)
    (hkkey : HEADERS_TO_WORKSPACE_KEY hk = some kkey)
    (hkey : kkey ≠ vkey)
    (huniq : ∀ j h2, headers[j]? = some h2 → (h2 = hk → j = ki) ∧ (h2 = hv → j = vi))
    (j : Nat) (hj : j ≠ vi) (dj : String) (acc2 : RecordObj) :
    objGetQ (kvAction headers keyPair valuePair j dj acc2) vkey =
      objGetQ acc2 vkey := by
  cases hhj : headers[j]? with
  | none =>
    rw [kvAction_no_match]
    rw [hhj]
    unfold isHeaderKeyOrValue
    rw [hkp, hvp]
    simp
  | some h2 =>
    obtain ⟨hik, hiv⟩ := huniq j h2 hhj
    by_cases h2v : h2 = hv
    · exact absurd (hiv h2v) hj
    · by_cases h2k : h2 = hk
      · subst h2k
        rw [kvAction_match headers _ _ j dj acc2 h2 hhj
          (by unfold isHeaderKeyOrValue; rw [hkp, hvp]; simp)]
        rw [hkkey]
        unfold objSetOpt
        exact objGetQ_objSet_ne _ _ _ _ hkey
      · rw [kvAction_no_match]
        rw [hhj]
        unfold isHeaderKeyOrValue
        rw [hkp, hvp]
        simp [h2k, h2v]

theorem kvRow_get_key (headers : List String)
    (keyPair valuePair hk hv kkey vkey : String) (ki vi : Nat)
    (cols : List String)
    (hkp : INGESTION_HEADERS_TO_WORKSPACE_KEY keyPair = some hk)
    (hvp : INGESTION_HEADERS_TO_WORKSPACE_KEY valuePair = some hv)
    (hkkey : HEADERS_TO_WORKSPACE_KEY hk = some kkey)
    (hvkey : HEADERS_TO_WORKSPACE_KEY hv = some vkey)
    (hkey : kkey ≠ vkey)
    (hki : headers[ki]? = some hk)
    (huniq : ∀ j h2, headers[j]? = some h2 → (h2 = hk → j = ki) ∧ (h2 = hv → j = vi)) :
    objGetQ (foldColsAux (kvAction headers keyPair valuePair) 0 cols []) kkey =
      (cols[ki]?).map (fun d => buildIngestedDatum d (some kkey)) := by
  cases hcol : cols[ki]? with
  | some d =>
    rw [foldColsAux_last_set (kvAction headers keyPair valuePair) kkey
      (buildIngestedDatum d (some kkey)) cols 0 [] ki d hcol ?_ ?_]
    · simp
    · intro acc2
      rw [Nat.zero_add]
      rw [kvAction_match headers _ _ ki d acc2 hk hki
        (by unfold isHeaderKeyOrValue; rw [hkp]; simp)]
      rw [hkkey]
      unfold objSetOpt
      simp [objGetQ_objSet_self]
    · intro j dj acc2 hlt _ _
      rw [Nat.zero_add]
      exact kvAction_other_key headers keyPair valuePair hk hv kkey vkey ki vi
        hkp hvp hvkey hkey huniq j (by omega) dj acc2
  | none =>
    rw [foldColsAux_preserve (kvAction headers keyPair valuePair) kkey cols 0 [] ?_]
    · simp [objGetQ, hcol]
    · intro j dj acc2 hj hdj
      rw [Nat.zero_add]
      have hjki : j ≠ ki := by
        intro he
        rw [he, hcol] at hdj
        cases hdj
      exact kvAction_other_key headers keyPair valuePair hk hv kkey vkey ki vi
        hkp hvp hvkey hkey huniq j hjki dj acc2

theorem kvRow_get_value (headers : List String)
    (keyPair valuePair hk hv kkey vkey : String) (ki vi : Nat)
    (cols : List String)
    (hkp : INGESTION_HEADERS_TO_WORKSPACE_KEY keyPair = some hk)
    (hvp : INGESTION_HEADERS_TO_WORKSPACE_KEY valuePair = some hv)
    (hkkey : HEADERS_TO_WORKSPACE_KEY hk = some kkey)
    (hvkey : HEADERS_TO_WORKSPACE_KEY hv = some vkey)
    (hkey : kkey ≠ vkey)
    (hvi : headers[vi]? = some hv)
    (huniq : ∀ j h2, headers[j]? = some h2 → (h2 = hk → j = ki) ∧ (h2 = hv → j = vi)) :
    objGetQ (foldColsAux (kvAction headers keyPair valuePair) 0 cols []) vkey =
      (cols[vi]?).map (fun d => buildIngestedDatum d (some vkey)) := by
  cases hcol : cols[vi]? with
  | some d =>
    rw [foldColsAux_last_set (kvAction headers keyPair valuePair) vkey
      (buildIngestedDatum d (some vkey)) cols 0 [] vi d hcol ?_ ?_]
    · simp
    · intro acc2
      rw [Nat.zero_add]
      rw [kvAction_match headers _ _ vi d acc2 hv hvi
        (by unfold isHeaderKeyOrValue; rw [hvp]; simp)]
      rw [hvkey]
      unfold objSetOpt
      simp [objGetQ_objSet_self]
    · intro j dj acc2 hlt _ _
      rw [Nat.zero_add]
      exact kvAction_other_value headers keyPair valuePair hk hv kkey vkey ki vi
        hkp hvp hkkey hkey huniq j (by omega) dj acc2
  | none =>
    rw [foldColsAux_preserve (kvAction headers keyPair valuePair) vkey cols 0 [] ?_]
    · simp [objGetQ, hcol]
    · intro j dj acc2 hj hdj
      rw [Nat.zero_add]
      have hjvi : j ≠ vi := by
        intro he
        rw [he, hcol] at hdj
        cases hdj
      exact kvAction_other_value headers keyPair valuePair hk hv kkey vkey ki vi
        hkp hvp hkkey hkey huniq j hjvi dj acc2

theorem buildKeyValuePair_eq_spec (contentRows headers : List String)
    (keyPair valuePair hk hv kkey vkey : String) (ki vi : Nat)
    (hkp : INGESTION_HEADERS_TO_WORKSPACE_KEY keyPair = some hk)
    (hvp : INGESTION_HEADERS_TO_WORKSPACE_KEY valuePair = some hv)
    (hkkey : HEADERS_TO_WORKSPACE_KEY hk = some kkey)
    (hvkey : HEADERS_TO_WORKSPACE_KEY hv = some vkey)
    (hkey : kkey ≠ vkey)
    (hki : headers[ki]? = some hk)
    (hvi : headers[vi]? = some hv)
    (huniq : ∀ j h2, headers[j]? = some h2 → (h2 = hk → j = ki) ∧ (h2 = hv → j = vi)) :
    buildKeyValuePair contentRows headers keyPair valuePair =
      lookupBuilderSpec contentRows ki vi kkey vkey := by
  unfold buildKeyValuePair lookupBuilderSpec
  apply foldl_congr_on
  intro cr _ acc
  dsimp only []
  rw [hkp, hvp]
  simp only [Option.some_bind]
  rw [hkkey, hvkey]
  have h1 : objGetOpt (foldColsAux (kvAction headers keyPair valuePair) 0
      (splitStr '\t' cr) []) (some kkey) = lookupRowKey ki kkey cr := by
    unfold objGetOpt objGet
    simp only [Option.getD_some]
    rw [kvRow_get_key headers keyPair valuePair hk hv kkey vkey ki vi _
      hkp hvp hkkey hvkey hkey hki huniq]
    unfold lookupRowKey
    cases (splitStr '\t' cr)[ki]? <;> simp
  have h2 : objGetOpt (foldColsAux (kvAction headers keyPair valuePair) 0
      (splitStr '\t' cr) []) (some vkey) = lookupRowValue vi vkey cr := by
    unfold objGetOpt objGet
    simp only [Option.getD_some]
    rw [kvRow_get_value headers keyPair valuePair hk hv kkey vkey ki vi _
      hkp hvp hkkey hvkey hkey hvi huniq]
    unfold lookupRowValue
    cases (splitStr '\t' cr)[vi]? <;> simp
  rw [h1, h2]

/-- Claim C2 (amended): for every content row transformed successfully by the
Row Transformer, reading the resulting Workspace Record back at a canonical
field mapped by one of the row's headers recovers exactly the Field-Coercion
value of that row's column, provided that field is not one of the six
derived keys (`access`, `consortium`, `samples`, `size`, `dbGapIdAccession`,
`dbGapId`) — those are overwritten by the derived-field merge — and that no
later column of the row maps to the same canonical field (the record holds
the last such column's coerced value). -/
theorem buildWorkspaceRow_roundtrip_coerced (resolver : JsValue → JsValue) (contentRow : String)
    (headers : List String) (sm st fm : JsMap) (rec : RecordObj)
    (hok : buildWorkspaceRow resolver contentRow headers sm st fm = .ok rec)
    (i : Nat) (d h k : String)
    (hd : (splitStr '\t' contentRow)[i]? = some d)
    (hh : headers[i]? = some h)
    (hk : HEADERS_TO_WORKSPACE_KEY h = some k)
    (hnd : k ∉ ["access", "consortium", "samples", "size", "dbGapIdAccession",
      "dbGapId"])
    (hlast : ∀ j, j < (splitStr '\t' contentRow).length → i < j →
      (headers[j]?).bind HEADERS_TO_WORKSPACE_KEY ≠ some k) :
    objGet rec k = buildIngestedDatum d (some k) := by
  obtain ⟨pid, c, hpid, hc, hrec⟩ :=
    buildWorkspaceRow_ok resolver contentRow headers sm st fm rec hok
  rw [hrec, objGet_merge_not_derived _ _ _ _ _ _ _ _ hnd]
  unfold objGet
  rw [foldColsAux_last_set (rowAction headers) k (buildIngestedDatum d (some k))
    (splitStr '\t' contentRow) 0 [] i d hd ?_ ?_]
  · simp
  · intro acc2
    rw [Nat.zero_add]
    exact rowAction_key headers i d acc2 k (by rw [hh]; simpa using hk)
      (headersKey_ne_empty h k hk)
  · intro j dj acc2 hij hjlen _
    rw [Nat.zero_add]
    exact rowAction_no_key headers j dj acc2 k (hlast j hjlen hij)

/-! ## The claims -/

/-! ## Further small helpers -/

theorem jsOr_falsy (v d : JsValue) (h : jsTruthy v = false) : jsOr v d = d := by
  simp [jsOr, h]

theorem consortiumDisplay_ne_empty (s v : String)
    (h : WORKSPACE_CONSORTIUM_DISPLAY_VALUE s = some v) : v ≠ "" := by
  unfold WORKSPACE_CONSORTIUM_DISPLAY_VALUE at h
  cases hfind : WORKSPACE_CONSORTIUM_DISPLAY_VALUE_PAIRS.find? (fun p => p.1 = s) with
  | none => simp [hfind] at h
  | some p =>
    have hmem := List.mem_of_find?_eq_some hfind
    have hall : ∀ q ∈ WORKSPACE_CONSORTIUM_DISPLAY_VALUE_PAIRS, q.2 ≠ "" := by decide
    simp [hfind] at h
    exact h ▸ hall p hmem

/-- Claim C1: if the main export file is absent, `getIngestedWorkspaces()`
resolves to an empty sequence of records without throwing; and for every
absent input file, the file-access operation emits a diagnostic naming the
file and returns an empty sequence of lines rather than failing. -/
theorem getIngestedWorkspaces_absent_files (resolver : JsValue → JsValue)
    (fs : FileSystem) (hmain : fs fileAnVILDataIngestion = none) :
    getIngestedWorkspaces resolver fs = .ok [] ∧
    ∀ fileName, fs fileName = none →
      getFileContents fs fileName =
        (["Error: file " ++ fileName ++ " cannot be found."], []) := by
  constructor
  · simp [getIngestedWorkspaces, getWorkspaces, getIngestedData, getFileContents,
      hmain, buildWorkspaces, promiseAll, sortDataByDuoTypes]
  · intro fileName hf
    simp [getFileContents, hf]

theorem getIngestedWorkspaces_absent_files_witness :
    ((fun _ => none : FileSystem) fileAnVILDataIngestion = none) ∧
    (getIngestedWorkspaces (fun _ => .undef) (fun _ => none) = .ok [] ∧
     ∀ fileName, (fun _ => none : FileSystem) fileName = none →
       getFileContents (fun _ => none) fileName =
         (["Error: file " ++ fileName ++ " cannot be found."], [])) :=
  ⟨rfl, getIngestedWorkspaces_absent_files (fun _ => .undef) (fun _ => none) rfl⟩

/-- Claim C6: Field Coercion parses fields on the array allow-list into an
ordered list of strings by splitting on comma, and fields on the number
allow-list into a number after stripping commas. -/
theorem buildIngestedDatum_allow_lists (d k : String) :
    (ALLOW_LIST_WORKSPACE_FIELD_ARRAY.contains k = true →
      buildIngestedDatum d (some k) = .arr (splitStr ',' d)) ∧
    (ALLOW_LIST_WORKSPACE_FIELD_NUMBER.contains k = true →
      buildIngestedDatum d (some k) = .num (jsNumberOfString (stripCommasStr d))) := by
  constructor
  · intro h
    have hk : k = "consentShortNames" ∨ k = "dataTypes" ∨ k = "diseases" := by
      simpa [ALLOW_LIST_WORKSPACE_FIELD_ARRAY] using h
    rcases hk with rfl | rfl | rfl <;> rfl
  · intro h
    have hk : k = "size" ∨ k = "samples" ∨ k = "subjects" := by
      simpa [ALLOW_LIST_WORKSPACE_FIELD_NUMBER] using h
    rcases hk with rfl | rfl | rfl <;> rfl

theorem buildIngestedDatum_allow_lists_witness :
    (ALLOW_LIST_WORKSPACE_FIELD_ARRAY.contains "dataTypes" = true ∧
      buildIngestedDatum "a,b,c" (some "dataTypes") = .arr ["a", "b", "c"]) ∧
    (ALLOW_LIST_WORKSPACE_FIELD_NUMBER.contains "size" = true ∧
      buildIngestedDatum "1,234" (some "size") = .num (.dec 1234 0)) :=
  ⟨⟨by decide, by
      rw [(buildIngestedDatum_allow_lists "a,b,c" "dataTypes").1 (by decide)]
      decide⟩,
   ⟨by decide, by
      rw [(buildIngestedDatum_allow_lists "1,234" "size").2 (by decide)]
      decide⟩⟩

/-- Claim C7: under the consortium field name, Field Coercion upper-cases the
raw text and looks it up in the fixed display-name table, falling back to the
upper-cased form itself when absent; `"gtex"` coerces to `"GTEx (v8)"` and an
unrecognized code passes through upper-cased. -/
theorem buildIngestedDatum_consortium_display :
    (∀ d : String, buildIngestedDatum d (some "consortium") =
      .str ((WORKSPACE_CONSORTIUM_DISPLAY_VALUE (toUpperStr d)).getD (toUpperStr d))) ∧
    buildIngestedDatum "gtex" (some "consortium") = .str "GTEx (v8)" ∧
    buildIngestedDatum "xyzzy" (some "consortium") = .str "XYZZY" := by
  refine ⟨?_, by decide, by decide⟩
  intro d
  unfold buildIngestedDatum formatIngestedDatum
  cases htab : WORKSPACE_CONSORTIUM_DISPLAY_VALUE (toUpperStr d) with
  | none =>
    simp [htab, ALLOW_LIST_WORKSPACE_FIELD_ARRAY, ALLOW_LIST_WORKSPACE_FIELD_NUMBER]
  | some v =>
    have hne := consortiumDisplay_ne_empty _ _ htab
    simp [htab, hne, ALLOW_LIST_WORKSPACE_FIELD_ARRAY,
      ALLOW_LIST_WORKSPACE_FIELD_NUMBER]

/-- Claim C5: for every content row transformed successfully, the derived
consortium field equals the result of splitting the row's project id on
underscore, taking the middle segment, and applying Field Coercion's
consortium rule. -/
theorem buildWorkspaceRow_consortium_derived (resolver : JsValue → JsValue)
    (contentRow : String) (headers : List String) (sm st fm : JsMap)
    (rec : RecordObj)
    (hok : buildWorkspaceRow resolver contentRow headers sm st fm = .ok rec) :
    ∃ pid c, objGet rec "projectId" = .str pid ∧
      (splitStr '_' pid)[1]? = some c ∧
      objGet rec "consortium" = buildIngestedDatum c (some "consortium") := by
  obtain ⟨pid, c, hpid, hc, hrec⟩ :=
    buildWorkspaceRow_ok resolver contentRow headers sm st fm rec hok
  refine ⟨pid, c, ?_, hc, ?_⟩
  · rw [hrec, objGet_merge_not_derived _ _ _ _ _ _ _ _ (by decide), hpid]
  · rw [hrec]
    simp [objGet, objGetQ_merge_consortium]

theorem buildWorkspaceRow_consortium_derived_witness :
    buildWorkspaceRow (fun _ => .undef) "AN_CCDG_something" ["name"] [] [] [] =
      .ok [("projectId", .str "AN_CCDG_something"), ("access", .str "Private"),
           ("consortium", .str "CCDG"), ("samples", .num (.dec 0 0)),
           ("size", .num (.dec 0 0)), ("dbGapIdAccession", .undef),
           ("dbGapId", .undef)] ∧
    (∃ pid c,
      objGet [("projectId", .str "AN_CCDG_something"), ("access", .str "Private"),
           ("consortium", .str "CCDG"), ("samples", .num (.dec 0 0)),
           ("size", .num (.dec 0 0)), ("dbGapIdAccession", .undef),
           ("dbGapId", .undef)] "projectId" = .str pid ∧
      (splitStr '_' pid)[1]? = some c ∧
      objGet [("projectId", .str "AN_CCDG_something"), ("access", .str "Private"),
           ("consortium", .str "CCDG"), ("samples", .num (.dec 0 0)),
           ("size", .num (.dec 0 0)), ("dbGapIdAccession", .undef),
           ("dbGapId", .undef)] "consortium" = buildIngestedDatum c (some "consortium")) ∧
    objGet [("projectId", .str "AN_CCDG_something"), ("access", .str "Private"),
           ("consortium", .str "CCDG"), ("samples", .num (.dec 0 0)),
           ("size", .num (.dec 0 0)), ("dbGapIdAccession", .undef),
           ("dbGapId", .undef)] "consortium" = .str "CCDG" :=
  ⟨rfl,
   buildWorkspaceRow_consortium_derived (fun _ => .undef) "AN_CCDG_something"
     ["name"] [] [] [] _ rfl,
   by decide⟩

/-- Claim C8: for every content row transformed successfully, the derived
access field equals "Public" if and only if the row's project id is on the
fixed public-access allow-list, and equals "Private" otherwise. -/
theorem buildWorkspaceRow_access_derived (resolver : JsValue → JsValue)
    (contentRow : String) (headers : List String) (sm st fm : JsMap)
    (rec : RecordObj)
    (hok : buildWorkspaceRow resolver contentRow headers sm st fm = .ok rec) :
    ∃ pid, objGet rec "projectId" = .str pid ∧
      objGet rec "access" =
        .str (if ALLOW_LIST_WORKSPACE_ACCESS_PUBLIC.contains pid then "Public"
          else "Private") ∧
      (objGet rec "access" = .str "Public" ↔
        ALLOW_LIST_WORKSPACE_ACCESS_PUBLIC.contains pid = true) := by
  obtain ⟨pid, c, hpid, hc, hrec⟩ :=
    buildWorkspaceRow_ok resolver contentRow headers sm st fm rec hok
  have haccess : objGet rec "access" =
      .str (if ALLOW_LIST_WORKSPACE_ACCESS_PUBLIC.contains pid then "Public"
        else "Private") := by
    rw [hrec]
    simp [objGet, objGetQ_merge_access]
  refine ⟨pid, ?_, haccess, ?_⟩
  · rw [hrec, objGet_merge_not_derived _ _ _ _ _ _ _ _ (by decide), hpid]
  · rw [haccess]
    by_cases hcon : ALLOW_LIST_WORKSPACE_ACCESS_PUBLIC.contains pid <;>
      simp [hcon]

theorem buildWorkspaceRow_access_derived_witness :
    buildWorkspaceRow (fun _ => .undef) "AN_CCDG_X" ["name"] [] [] [] =
      .ok [("projectId", .str "AN_CCDG_X"), ("access", .str "Private"),
           ("consortium", .str "CCDG"), ("samples", .num (.dec 0 0)),
           ("size", .num (.dec 0 0)), ("dbGapIdAccession", .undef),
           ("dbGapId", .undef)] ∧
    (∃ pid,
      objGet [("projectId", .str "AN_CCDG_X"), ("access", .str "Private"),
           ("consortium", .str "CCDG"), ("samples", .num (.dec 0 0)),
           ("size", .num (.dec 0 0)), ("dbGapIdAccession", .undef),
           ("dbGapId", .undef)] "projectId" = .str pid ∧
      objGet [("projectId", .str "AN_CCDG_X"), ("access", .str "Private"),
           ("consortium", .str "CCDG"), ("samples", .num (.dec 0 0)),
           ("size", .num (.dec 0 0)), ("dbGapIdAccession", .undef),
           ("dbGapId", .undef)] "access" =
        .str (if ALLOW_LIST_WORKSPACE_ACCESS_PUBLIC.contains pid then "Public"
          else "Private") ∧
      (objGet [("projectId", .str "AN_CCDG_X"), ("access", .str "Private"),
           ("consortium", .str "CCDG"), ("samples", .num (.dec 0 0)),
           ("size", .num (.dec 0 0)), ("dbGapIdAccession", .undef),
           ("dbGapId", .undef)] "access" = .str "Public" ↔
        ALLOW_LIST_WORKSPACE_ACCESS_PUBLIC.contains pid = true)) :=
  ⟨rfl,
   buildWorkspaceRow_access_derived (fun _ => .undef) "AN_CCDG_X" ["name"]
     [] [] [] _ rfl⟩

/-- Claim C9: for every content row whose project id is absent as a key from
the sample-count lookup or from the file-size lookup, the corresponding field
in the final Workspace Record is the number 0 — present, not absent and not
undefined. -/
theorem buildWorkspaceRow_missing_lookup_zero (resolver : JsValue → JsValue)
    (contentRow : String) (headers : List String) (sm st fm : JsMap)
    (rec : RecordObj)
    (hok : buildWorkspaceRow resolver contentRow headers sm st fm = .ok rec) :
    ∃ pid, objGet rec "projectId" = .str pid ∧
      (mapGetQ sm (.str pid) = none →
        objGetQ rec "samples" = some (.num (.dec 0 0))) ∧
      (mapGetQ fm (.str pid) = none →
        objGetQ rec "size" = some (.num (.dec 0 0))) := by
  obtain ⟨pid, c, hpid, hc, hrec⟩ :=
    buildWorkspaceRow_ok resolver contentRow headers sm st fm rec hok
  refine ⟨pid, ?_, ?_, ?_⟩
  · rw [hrec, objGet_merge_not_derived _ _ _ _ _ _ _ _ (by decide), hpid]
  · intro hnone
    rw [hrec, objGetQ_merge_samples]
    simp [mapGet, hnone, jsOr, jsTruthy]
  · intro hnone
    rw [hrec, objGetQ_merge_size]
    simp [mapGet, hnone, jsOr, jsTruthy]

theorem buildWorkspaceRow_missing_lookup_zero_witness :
    buildWorkspaceRow (fun _ => .undef) "AN_CCDG_X" ["name"] [] [] [] =
      .ok [("projectId", .str "AN_CCDG_X"), ("access", .str "Private"),
           ("consortium", .str "CCDG"), ("samples", .num (.dec 0 0)),
           ("size", .num (.dec 0 0)), ("dbGapIdAccession", .undef),
           ("dbGapId", .undef)] ∧
    (∃ pid,
      objGet [("projectId", .str "AN_CCDG_X"), ("access", .str "Private"),
           ("consortium", .str "CCDG"), ("samples", .num (.dec 0 0)),
           ("size", .num (.dec 0 0)), ("dbGapIdAccession", .undef),
           ("dbGapId", .undef)] "projectId" = .str pid ∧
      (mapGetQ [] (.str pid) = none →
        objGetQ [("projectId", .str "AN_CCDG_X"), ("access", .str "Private"),
           ("consortium", .str "CCDG"), ("samples", .num (.dec 0 0)),
           ("size", .num (.dec 0 0)), ("dbGapIdAccession", .undef),
           ("dbGapId", .undef)] "samples" = some (.num (.dec 0 0))) ∧
      (mapGetQ [] (.str pid) = none →
        objGetQ [("projectId", .str "AN_CCDG_X"), ("access", .str "Private"),
           ("consortium", .str "CCDG"), ("samples", .num (.dec 0 0)),
           ("size", .num (.dec 0 0)), ("dbGapIdAccession", .undef),
           ("dbGapId", .undef)] "size" = some (.num (.dec 0 0)))) :=
  ⟨rfl,
   buildWorkspaceRow_missing_lookup_zero (fun _ => .undef) "AN_CCDG_X" ["name"]
     [] [] [] _ rfl⟩

/-- Claim C10: in every final Workspace Record the sample-count and file-size
fields are present and are never `NaN` and never `undefined`; any falsy value
stored in the corresponding lookup (including `NaN`, the empty string, or an
explicit 0) is replaced by the number 0 during row transformation. -/
theorem buildWorkspaceRow_samples_size_defined (resolver : JsValue → JsValue)
    (contentRow : String) (headers : List String) (sm st fm : JsMap)
    (rec : RecordObj)
    (hok : buildWorkspaceRow resolver contentRow headers sm st fm = .ok rec) :
    ∃ pid s z, objGet rec "projectId" = .str pid ∧
      objGetQ rec "samples" = some s ∧ objGetQ rec "size" = some z ∧
      s ≠ .num .nan ∧ s ≠ .undef ∧ z ≠ .num .nan ∧ z ≠ .undef ∧
      (jsTruthy (mapGet sm (.str pid)) = false → s = .num (.dec 0 0)) ∧
      (jsTruthy (mapGet fm (.str pid)) = false → z = .num (.dec 0 0)) := by
  obtain ⟨pid, c, hpid, hc, hrec⟩ :=
    buildWorkspaceRow_ok resolver contentRow headers sm st fm rec hok
  refine ⟨pid, jsOr (mapGet sm (.str pid)) (.num (.dec 0 0)),
    jsOr (mapGet fm (.str pid)) (.num (.dec 0 0)), ?_, ?_, ?_, ?_, ?_, ?_, ?_, ?_, ?_⟩
  · rw [hrec, objGet_merge_not_derived _ _ _ _ _ _ _ _ (by decide), hpid]
  · rw [hrec, objGetQ_merge_samples]
  · rw [hrec, objGetQ_merge_size]
  · exact (jsOr_zero_not_nan _).1
  · exact (jsOr_zero_not_nan _).2
  · exact (jsOr_zero_not_nan _).1
  · exact (jsOr_zero_not_nan _).2
  · intro hfalsy
    exact jsOr_falsy _ _ hfalsy
  · intro hfalsy
    exact jsOr_falsy _ _ hfalsy

theorem buildWorkspaceRow_samples_size_defined_witness :
    buildWorkspaceRow (fun _ => .undef) "AN_CCDG_X" ["name"]
      [(.str "AN_CCDG_X", .num .nan)] [] [] =
      .ok [("projectId", .str "AN_CCDG_X"), ("access", .str "Private"),
           ("consortium", .str "CCDG"), ("samples", .num (.dec 0 0)),
           ("size", .num (.dec 0 0)), ("dbGapIdAccession", .undef),
           ("dbGapId", .undef)] ∧
    (∃ pid s z,
      objGet [("projectId", .str "AN_CCDG_X"), ("access", .str "Private"),
           ("consortium", .str "CCDG"), ("samples", .num (.dec 0 0)),
           ("size", .num (.dec 0 0)), ("dbGapIdAccession", .undef),
           ("dbGapId", .undef)] "projectId" = .str pid ∧
      objGetQ [("projectId", .str "AN_CCDG_X"), ("access", .str "Private"),
           ("consortium", .str "CCDG"), ("samples", .num (.dec 0 0)),
           ("size", .num (.dec 0 0)), ("dbGapIdAccession", .undef),
           ("dbGapId", .undef)] "samples" = some s ∧
      objGetQ [("projectId", .str "AN_CCDG_X"), ("access", .str "Private"),
           ("consortium", .str "CCDG"), ("samples", .num (.dec 0 0)),
           ("size", .num (.dec 0 0)), ("dbGapIdAccession", .undef),
           ("dbGapId", .undef)] "size" = some z ∧
      s ≠ .num .nan ∧ s ≠ .undef ∧ z ≠ .num .nan ∧ z ≠ .undef ∧
      (jsTruthy (mapGet [(.str "AN_CCDG_X", .num .nan)] (.str pid)) = false →
        s = .num (.dec 0 0)) ∧
      (jsTruthy (mapGet [] (.str pid)) = false → z = .num (.dec 0 0))) :=
  ⟨rfl,
   buildWorkspaceRow_samples_size_defined (fun _ => .undef) "AN_CCDG_X" ["name"]
     [(.str "AN_CCDG_X", .num .nan)] [] [] _ rfl⟩

/-- Claim C2, counterexample to the unamended claim: a row carrying a
"Sample Count" column coerces it to the number 5, but the record read back at
`samples` holds 0 — the derived-field merge overwrote the coerced value. -/
theorem roundtrip_overwritten_counterexample :
    (buildWorkspaceRow (fun _ => .undef) "AN_CCDG_X\t5" ["name", "Sample Count"]
      [] [] []).toOption = some
      [("projectId", .str "AN_CCDG_X"), ("samples", .num (.dec 0 0)),
       ("access", .str "Private"), ("consortium", .str "CCDG"),
       ("size", .num (.dec 0 0)), ("dbGapIdAccession", .undef),
       ("dbGapId", .undef)] ∧
    (splitStr '\t' "AN_CCDG_X\t5")[1]? = some "5" ∧
    ["name", "Sample Count"][1]? = some "Sample Count" ∧
    HEADERS_TO_WORKSPACE_KEY "Sample Count" = some "samples" ∧
    buildIngestedDatum "5" (some "samples") = .num (.dec 5 0) ∧
    objGet [("projectId", .str "AN_CCDG_X"), ("samples", .num (.dec 0 0)),
       ("access", .str "Private"), ("consortium", .str "CCDG"),
       ("size", .num (.dec 0 0)), ("dbGapIdAccession", .undef),
       ("dbGapId", .undef)] "samples" = .num (.dec 0 0) ∧
    JsValue.num (.dec 0 0) ≠ .num (.dec 5 0) := by
  decide

/-- Witness for the amended round-trip at a concrete row. -/
theorem roundtrip_coerced_witness :
    buildWorkspaceRow (fun _ => .undef) "AN_CCDG_X\tflu"
      ["name", "library:indication"] [] [] [] =
      .ok [("projectId", .str "AN_CCDG_X"), ("diseases", .arr ["flu"]),
           ("access", .str "Private"), ("consortium", .str "CCDG"),
           ("samples", .num (.dec 0 0)), ("size", .num (.dec 0 0)),
           ("dbGapIdAccession", .undef), ("dbGapId", .undef)] ∧
    (splitStr '\t' "AN_CCDG_X\tflu")[1]? = some "flu" ∧
    ["name", "library:indication"][1]? = some "library:indication" ∧
    HEADERS_TO_WORKSPACE_KEY "library:indication" = some "diseases" ∧
    "diseases" ∉ ["access", "consortium", "samples", "size", "dbGapIdAccession",
      "dbGapId"] ∧
    (∀ j, j < (splitStr '\t' "AN_CCDG_X\tflu").length → 1 < j →
      ((["name", "library:indication"][j]?).bind HEADERS_TO_WORKSPACE_KEY ≠
        some "diseases")) ∧
    objGet [("projectId", .str "AN_CCDG_X"), ("diseases", .arr ["flu"]),
           ("access", .str "Private"), ("consortium", .str "CCDG"),
           ("samples", .num (.dec 0 0)), ("size", .num (.dec 0 0)),
           ("dbGapIdAccession", .undef), ("dbGapId", .undef)] "diseases" =
      buildIngestedDatum "flu" (some "diseases") :=
  ⟨rfl, by decide, by decide, by decide, by decide, by decide,
   buildWorkspaceRow_roundtrip_coerced (fun _ => .undef) "AN_CCDG_X\tflu"
     ["name", "library:indication"] [] [] [] _ rfl 1 "flu" "library:indication"
     "diseases" (by decide) (by decide) (by decide) (by decide) (by decide)⟩

/-- Claim C3: for every two-column lookup input whose header row names the
key column once and the value column once, the Lookup Builder produces
exactly one association entry per non-header row (the fold performs one
`mapSet` per row), mapping the coerced value under the key column to the
coerced value under the value column, with later rows overwriting earlier
ones when they share a key: the entry retrieved for a key is the value of
the last row bearing it. -/
theorem buildKeyValuePair_lookup_builder (contentRows headers : List String)
    (keyPair valuePair hk hv kkey vkey : String) (ki vi : Nat)
    (hkp : INGESTION_HEADERS_TO_WORKSPACE_KEY keyPair = some hk)
    (hvp : INGESTION_HEADERS_TO_WORKSPACE_KEY valuePair = some hv)
    (hkkey : HEADERS_TO_WORKSPACE_KEY hk = some kkey)
    (hvkey : HEADERS_TO_WORKSPACE_KEY hv = some vkey)
    (hkey : kkey ≠ vkey)
    (hki : headers[ki]? = some hk)
    (hvi : headers[vi]? = some hv)
    (huniq : ∀ j, j < headers.length → ∀ h2, headers[j]? = some h2 →
      (h2 = hk → j = ki) ∧ (h2 = hv → j = vi)) :
    buildKeyValuePair contentRows headers keyPair valuePair =
      lookupBuilderSpec contentRows ki vi kkey vkey ∧
    ∀ K, mapGetQ (buildKeyValuePair contentRows headers keyPair valuePair) K =
      ((contentRows.drop 1).reverse.find?
        (fun cr => lookupRowKey ki kkey cr = K)).map
        (lookupRowValue vi vkey) := by
  have huniq2 : ∀ j h2, headers[j]? = some h2 →
      (h2 = hk → j = ki) ∧ (h2 = hv → j = vi) := by
    intro j h2 hj
    have hlt : j < headers.length := by
      by_contra hge
      push_neg at hge
      rw [List.getElem?_eq_none hge] at hj
      cases hj
    exact huniq j hlt h2 hj
  have heq := buildKeyValuePair_eq_spec contentRows headers keyPair valuePair
    hk hv kkey vkey ki vi hkp hvp hkkey hvkey hkey hki hvi huniq2
  refine ⟨heq, ?_⟩
  intro K
  rw [heq]
  unfold lookupBuilderSpec
  rw [mapGetQ_foldl_mapSet (lookupRowKey ki kkey) (lookupRowValue vi vkey) _ [] K]
  cases hfind : (contentRows.drop 1).reverse.find?
      (fun cr => lookupRowKey ki kkey cr = K) <;>
    simp [hfind, mapGetQ]

theorem buildKeyValuePair_lookup_builder_witness :
    INGESTION_HEADERS_TO_WORKSPACE_KEY "WORKSPACE" = some "Workspace" ∧
    INGESTION_HEADERS_TO_WORKSPACE_KEY "SAMPLES" = some "Sample Count" ∧
    HEADERS_TO_WORKSPACE_KEY "Workspace" = some "projectId" ∧
    HEADERS_TO_WORKSPACE_KEY "Sample Count" = some "samples" ∧
    (buildKeyValuePair ["Workspace\tSample Count", "p1\t7", "p1\t9"]
      ["Workspace", "Sample Count"] "WORKSPACE" "SAMPLES" =
      lookupBuilderSpec ["Workspace\tSample Count", "p1\t7", "p1\t9"] 0 1
        "projectId" "samples" ∧
     ∀ K, mapGetQ (buildKeyValuePair ["Workspace\tSample Count", "p1\t7", "p1\t9"]
        ["Workspace", "Sample Count"] "WORKSPACE" "SAMPLES") K =
       ((["Workspace\tSample Count", "p1\t7", "p1\t9"].drop 1).reverse.find?
         (fun cr => lookupRowKey 0 "projectId" cr = K)).map
         (lookupRowValue 1 "samples")) ∧
    buildKeyValuePair ["Workspace\tSample Count", "p1\t7", "p1\t9"]
      ["Workspace", "Sample Count"] "WORKSPACE" "SAMPLES" =
      [(.str "p1", .num (.dec 9 0))] :=
  ⟨by decide, by decide, by decide, by decide,
   buildKeyValuePair_lookup_builder ["Workspace\tSample Count", "p1\t7", "p1\t9"]
     ["Workspace", "Sample Count"] "WORKSPACE" "SAMPLES" "Workspace"
     "Sample Count" "projectId" "samples" 0 1 (by decide) (by decide)
     (by decide) (by decide) (by decide) (by decide) (by decide) (by decide),
   by decide⟩

/-- Claim C4, counterexample to the unamended claim: the pipeline run on an
export whose SUBJECTS column holds "-5" produces a record whose `subjects`
field is the negative number -5 — numeric fields are not guaranteed
non-negative. -/
theorem pipeline_negative_subjects_counterexample :
    (getIngestedWorkspaces (fun _ => .undef)
      (fun n => if n = fileAnVILDataIngestion then
        some "name\tlibrary:numSubjects\r\nAN_CCDG_X\t-5" else none)).toOption =
      some [[("projectId", .str "AN_CCDG_X"), ("subjects", .num (.dec (-5) 0)),
             ("access", .str "Private"), ("consortium", .str "CCDG"),
             ("samples", .num (.dec 0 0)), ("size", .num (.dec 0 0)),
             ("dbGapIdAccession", .undef), ("dbGapId", .undef)]] ∧
    objGet [("projectId", .str "AN_CCDG_X"), ("subjects", .num (.dec (-5) 0)),
             ("access", .str "Private"), ("consortium", .str "CCDG"),
             ("samples", .num (.dec 0 0)), ("size", .num (.dec 0 0)),
             ("dbGapIdAccession", .undef), ("dbGapId", .undef)] "subjects" =
      .num (.dec (-5) 0) ∧
    ((-5 : Int) < 0) := by
  decide

/-- Claim C4 (amended): every Workspace Record produced by the pipeline has a
non-empty project id string (a row with an empty or missing project id makes
the row transform throw instead); the numeric fields are not guaranteed
non-negative when the ingested text carries negative numerals. -/
theorem pipeline_record_projectId_nonempty (resolver : JsValue → JsValue)
    (fs : FileSystem) (recs : List RecordObj) (rec : RecordObj)
    (h : getIngestedWorkspaces resolver fs = .ok recs) (hrec : rec ∈ recs) :
    ∃ pid, objGet rec "projectId" = .str pid ∧ pid ≠ "" := by
  obtain ⟨cr, hcr, hok⟩ := getIngestedWorkspaces_ok_mem resolver fs recs h rec hrec
  exact buildWorkspaceRow_ok_projectId resolver cr _ _ _ _ rec hok

theorem pipeline_record_projectId_nonempty_witness :
    getIngestedWorkspaces (fun _ => .undef)
      (fun n => if n = fileAnVILDataIngestion then some "name\r\nAN_CCDG_X"
        else none) =
      .ok [[("projectId", .str "AN_CCDG_X"), ("access", .str "Private"),
            ("consortium", .str "CCDG"), ("samples", .num (.dec 0 0)),
            ("size", .num (.dec 0 0)), ("dbGapIdAccession", .undef),
            ("dbGapId", .undef)]] ∧
    [("projectId", .str "AN_CCDG_X"), ("access", .str "Private"),
            ("consortium", .str "CCDG"), ("samples", .num (.dec 0 0)),
            ("size", .num (.dec 0 0)), ("dbGapIdAccession", .undef),
            ("dbGapId", .undef)] ∈
      [[("projectId", JsValue.str "AN_CCDG_X"), ("access", .str "Private"),
            ("consortium", .str "CCDG"), ("samples", .num (.dec 0 0)),
            ("size", .num (.dec 0 0)), ("dbGapIdAccession", .undef),
            ("dbGapId", .undef)]] ∧
    (∃ pid, objGet [("projectId", .str "AN_CCDG_X"), ("access", .str "Private"),
            ("consortium", .str "CCDG"), ("samples", .num (.dec 0 0)),
            ("size", .num (.dec 0 0)), ("dbGapIdAccession", .undef),
            ("dbGapId", .undef)] "projectId" = .str pid ∧ pid ≠ "") :=
  ⟨rfl, by decide,
   pipeline_record_projectId_nonempty (fun _ => .undef)
     (fun n => if n = fileAnVILDataIngestion then some "name\r\nAN_CCDG_X"
       else none) _ _ rfl (by decide)⟩
